import Mathlib

/-!
Verification development for the downloads-folder organiser
(`src/organiser.py`).  The Python source is shallowly embedded below:
pure computations become Lean functions, the filesystem is a list of
filenames, and every fallible external step (oracle call, `os.rename`,
`shutil.move`, `Image.open`, JSON write) is driven by an explicit outcome
parameter supplied through an environment record.
-/

namespace Organiser

/-! ## Python string primitives used by the source

`re.sub(r'[^\w\s-]', '', s)`, `str.strip()`, `str.lower()`,
`str.replace`, `pathlib.Path.suffix` and `os.path.splitext` are modelled
on `List Char`.  `\w` and `\s` are modelled over ASCII, which covers every
string literal appearing in the source. -/

def isPyWord (c : Char) : Bool :=
  c.isAlphanum || c = '_'

def isPySpace (c : Char) : Bool :=
  c = ' ' || c = '\t' || c = '\n' || c = '\r' || c = Char.ofNat 11 || c = Char.ofNat 12

/-- Character class kept by `re.sub(r'[^\w\s-]', '', _)`. -/
def keepWordSpaceHyphen (c : Char) : Bool :=
  isPyWord c || isPySpace c || c = '-'

/-- Python `str.lower()` over ASCII, written via `List.map` so that it
reduces inside the kernel. -/
def pyLower (s : String) : String :=
  String.mk (s.data.map Char.toLower)

/-- Python `str.strip()` (whitespace at both ends removed). -/
def pyStrip (cs : List Char) : List Char :=
  ((cs.dropWhile isPySpace).reverse.dropWhile isPySpace).reverse

/-- `re.sub(r'[^\w\s-]', '', title).strip().replace(' ', '_').replace('-', '_')`
(source lines 289 and 504: title cleaning in both rename paths). -/
def cleanTitleRename (title : String) : String :=
  String.mk ((pyStrip (title.data.filter keepWordSpaceHyphen)).map
    (fun c => if c = ' ' then '_' else if c = '-' then '_' else c))

/-- `re.sub(r'[^\w\s-]', '', name).replace(' ', '_')`
(source lines 140, 427, 548: category/folder-name sanitisation). -/
def sanitizeCategory (name : String) : String :=
  String.mk ((name.data.filter keepWordSpaceHyphen).map
    (fun c => if c = ' ' then '_' else c))

/-- `pathlib.PurePath.suffix`: the part of the name from the last dot,
empty when there is no dot, the dot is the first character, or the dot is
the last character. -/
def pySuffix (s : String) : String :=
  let cs := s.data
  let t := cs.reverse.takeWhile (fun c => c ≠ '.')
  if t.length = cs.length then ""
  else if t.length = 0 then ""
  else if t.length + 1 = cs.length then ""
  else String.mk ('.' :: t.reverse)

/-- The extension component of `os.path.splitext` (source lines 266, 503):
from the last dot, unless every character before that dot is a dot. -/
def pySplitExtSuffix (s : String) : String :=
  let cs := s.data
  let t := cs.reverse.takeWhile (fun c => c ≠ '.')
  if t.length = cs.length then ""
  else
    let before := cs.take (cs.length - t.length - 1)
    if before.all (fun c => c = '.') then "" else String.mk ('.' :: t.reverse)

/-! ## Constants (source lines 21-34) -/

def MAX_RETRIES : Nat := 3
def RETRY_DELAY : Nat := 10
def PROCESSED_SUFFIX : String := "_DESC"
def BATCH_SIZE : Nat := 10
def IMAGE_EXTENSIONS : List String := [".png", ".jpg", ".jpeg", ".webp"]
def ARCHIVE_NAME : String := "Organized_Archive"
def FOLDERS_DEST_NAME : String := "Folders"
def CONFIG_NAME : String := ".file_organizer_config.txt"

/-! ## Category map (`EXT_MAP`)

A Python `dict` with insertion order is modelled as an association list
with first-match lookup; the source's default map is transcribed from
`load_extension_map` (lines 110-119). -/

abbrev ExtMap := List (String × List String)

def assocLookupL : ExtMap → String → Option (List String)
  | [], _ => none
  | (k, v) :: r, key => if k = key then some v else assocLookupL r key

def hasKey (m : ExtMap) (k : String) : Bool :=
  (assocLookupL m k).isSome

/-- In-place `ext_map[key].append e` on the first pair with that key. -/
def appendAt : ExtMap → String → String → ExtMap
  | [], _, _ => []
  | (k, v) :: r, key, e =>
    if k = key then (k, v ++ [e]) :: r else (k, v) :: appendAt r key e

def defaultExtMap : ExtMap :=
  [ ("Images", [".jpg", ".jpeg", ".png", ".gif", ".ico", ".webp", ".tiff"]),
    ("Documents", [".pdf", ".docx", ".doc", ".txt", ".xlsx", ".pptx", ".csv", ".epub", ".odt"]),
    ("Installers", [".exe", ".msi", ".dmg", ".pkg"]),
    ("Archives", [".zip", ".rar", ".7z", ".tar", ".gz"]),
    ("Code", [".py", ".js", ".html", ".css", ".md", ".json", ".log"]),
    ("Audio", [".mp3", ".wav", ".aac", ".flac"]),
    ("Video", [".mp4", ".mov", ".mkv", ".avi"]),
    ("Exclusions", [".temp", ".lock", "README.md", "desktop.ini"]) ]

/-- `update_extension_map` (source lines 137-154), with the outcome of the
JSON rewrite made explicit.  The result's second component is `some b`
when a disk write was attempted with outcome `b`, and `none` when the
pair was already present so no write happens.  The write runs inside
`try/except`, after the in-memory append, so the returned map never
depends on `writeOk`. -/
def update_extension_map_run (m : ExtMap) (extension folderName : String)
    (writeOk : Bool) : ExtMap × Option Bool :=
  let safe := sanitizeCategory folderName
  let e := pyLower extension
  let m1 := if hasKey m safe then m else m ++ [(safe, [])]
  if e ∈ (assocLookupL m1 safe).getD [] then (m1, none)
  else (appendAt m1 safe e, some writeOk)

/-- The in-memory effect of `update_extension_map`. -/
def update_extension_map (m : ExtMap) (extension folderName : String) : ExtMap :=
  (update_extension_map_run m extension folderName true).1

/-! ## Rule-based classification (source lines 418-421)

`for category, extensions in EXT_MAP.items(): if ext in extensions: ...
break` — first category (in map order, `Exclusions` included) whose list
contains the extension. -/

def ruleLookup : ExtMap → String → Option String
  | [], _ => none
  | (cat, exts) :: rest, e => if e ∈ exts then some cat else ruleLookup rest e

/-! ## Oracle outcome model

Every oracle interaction is driven by an explicit outcome.  For the
extension-classification agent (`get_folder_recommendation`, source lines
160-191) the outcome of attempt `k` is given by a function `Nat →
ExtOutcome`: a structured success, an `APIError` (transient, retried with
a `RETRY_DELAY` sleep), or any other exception (immediate `None`). -/

structure FolderRecommendation where
  suggested_folder_name : String
  is_new_category : Bool
deriving DecidableEq

structure CodeClassification where
  project_name : String
  suggested_folder : String
deriving DecidableEq

inductive ExtOutcome
  | success (fr : FolderRecommendation)
  | apiError
  | genError
deriving DecidableEq

structure OracleLoopResult where
  result : Option FolderRecommendation
  calls : Nat
  sleeps : Nat
deriving DecidableEq

/-- Retry loop of `get_folder_recommendation` (source lines 172-191).
`attempt` mirrors the `retries` counter: it is incremented exactly on
`APIError`, each such error also performing one `time.sleep(RETRY_DELAY)`.
The fuel is `MAX_RETRIES - retries`, so the loop makes at most
`MAX_RETRIES` calls and returns `none` on exhaustion. -/
def getFolderRecAux (oracle : Nat → ExtOutcome) : Nat → Nat → OracleLoopResult
  | attempt, 0 => ⟨none, attempt, attempt⟩
  | attempt, fuel + 1 =>
    match oracle attempt with
    | .success fr => ⟨some fr, attempt + 1, attempt⟩
    | .apiError => getFolderRecAux oracle (attempt + 1) fuel
    | .genError => ⟨none, attempt + 1, attempt⟩

/-- `get_folder_recommendation`: returns `None` immediately when the
client is not configured (source line 163). -/
def getFolderRecommendation (clientReady : Bool) (oracle : Nat → ExtOutcome) :
    OracleLoopResult :=
  if clientReady then getFolderRecAux oracle 0 MAX_RETRIES else ⟨none, 0, 0⟩

/-! ## Per-file classification (source lines 414-441)

Steps 3-5 of `organize_downloads`: rule lookup, then either the semantic
code pass (`analyze_code_content`, lines 193-225: one oracle request, any
exception yielding `None`; no request at all when the client is missing
or the file cannot be read) or the extension-escalation fallback. -/

inductive OracleCall
  | extClassify
  | codeAnalyze
deriving DecidableEq

inductive Dest
  | plain (name : String)
  | codePath (semantic : String)
deriving DecidableEq

structure ClassifyEnv where
  clientReady : Bool
  codeFileReadable : Bool
  codeResult : Option CodeClassification
  extOracle : Nat → ExtOutcome

structure ClassifyResult where
  dest : Dest
  calls : List OracleCall
  extMap : ExtMap

def classifyFile (m : ExtMap) (env : ClassifyEnv) (ext : String) : ClassifyResult :=
  match ruleLookup m ext with
  | some cat =>
    if cat = "Code" then
      if env.clientReady = false then ⟨.plain "Code", [], m⟩
      else if env.codeFileReadable = false then ⟨.plain "Code", [], m⟩
      else
        match env.codeResult with
        | some info =>
          if info.suggested_folder ≠ "" then
            ⟨.codePath (sanitizeCategory info.suggested_folder), [.codeAnalyze], m⟩
          else ⟨.plain "Code", [.codeAnalyze], m⟩
        | none => ⟨.plain "Code", [.codeAnalyze], m⟩
    else ⟨.plain cat, [], m⟩
  | none =>
    let r := getFolderRecommendation env.clientReady env.extOracle
    match r.result with
    | some fr =>
      if fr.suggested_folder_name ≠ "" then
        ⟨.plain fr.suggested_folder_name, List.replicate r.calls .extClassify,
          update_extension_map m ext fr.suggested_folder_name⟩
      else ⟨.plain "Unsorted_Agent_Failed", List.replicate r.calls .extClassify, m⟩
    | none => ⟨.plain "Unsorted_Agent_Failed", List.replicate r.calls .extClassify, m⟩

/-! ## The organize run (`organize_downloads`, source lines 354-461)

A staging entry carries a name, a directory flag and a last-modified
timestamp (seconds).  The run-start clock `now` is fixed in the
configuration; `CUTOFF_TIME = now - 24h` (source line 369).  Outcomes of
the external moves are supplied per item name.  `existing_categories`
(source line 372) only feeds the oracle prompt text and therefore does
not appear in the model. -/

structure Item where
  name : String
  isDir : Bool
  mtime : Int
deriving DecidableEq

inductive ItemOutcome
  | folderMoved
  | folderSelfSkip
  | folderMoveFailed
  | configSkip
  | excludedSkip
  | recentSkip
  | moved (d : Dest)
  | moveFailed (d : Dest)
  | noMove
deriving DecidableEq

structure OrgCfg where
  processAll : Bool
  now : Int
  clientReady : Bool
  codeFileReadable : String → Bool
  codeResult : String → Option CodeClassification
  extOracle : String → Nat → ExtOutcome
  moveOk : String → Bool
  folderMoveOk : String → Bool

structure RunState where
  extMap : ExtMap
  files : Nat
  folders : Nat
deriving DecidableEq

def cutoffTime (now : Int) : Int := now - 86400

def destTruthy : Dest → Bool
  | .plain s => s ≠ ""
  | .codePath _ => true

def classifyEnvFor (cfg : OrgCfg) (name : String) : ClassifyEnv :=
  ⟨cfg.clientReady, cfg.codeFileReadable name, cfg.codeResult name, cfg.extOracle name⟩

/-- One iteration of the `for item in DOWNLOADS_DIR.iterdir()` loop
(source lines 377-458): folder handling, config-file skip, exclusion
check, time gate, classification, final move.  `exclusionList` is the
run-start snapshot `[item.lower() for item in EXT_MAP.get("Exclusions", [])]`
(source line 371). -/
def processItem (cfg : OrgCfg) (exclusionList : List String) (st : RunState)
    (item : Item) : RunState × ItemOutcome × List OracleCall :=
  if item.isDir then
    if item.name = ARCHIVE_NAME ∨ item.name = FOLDERS_DEST_NAME then
      (st, .folderSelfSkip, [])
    else if cfg.folderMoveOk item.name then
      ({ st with folders := st.folders + 1 }, .folderMoved, [])
    else (st, .folderMoveFailed, [])
  else if item.name = CONFIG_NAME then (st, .configSkip, [])
  else if pyLower item.name ∈ exclusionList ∨ pyLower (pySuffix item.name) ∈ exclusionList then
    (st, .excludedSkip, [])
  else if ¬ cfg.processAll ∧ cutoffTime cfg.now ≤ item.mtime then
    (st, .recentSkip, [])
  else
    let ext := pyLower (pySuffix item.name)
    let r := classifyFile st.extMap (classifyEnvFor cfg item.name) ext
    if destTruthy r.dest then
      if cfg.moveOk item.name then
        ({ st with extMap := r.extMap, files := st.files + 1 }, .moved r.dest, r.calls)
      else ({ st with extMap := r.extMap }, .moveFailed r.dest, r.calls)
    else ({ st with extMap := r.extMap }, .noMove, r.calls)

def organizeRunAux (cfg : OrgCfg) (exclusionList : List String) :
    RunState → List Item → RunState × List ItemOutcome
  | st, [] => (st, [])
  | st, item :: rest =>
    let p := processItem cfg exclusionList st item
    let q := organizeRunAux cfg exclusionList p.1 rest
    (q.1, p.2.1 :: q.2)

/-- The whole run over the staging listing, starting from the loaded map
`m0`.  Returns the final state together with the per-item outcomes. -/
def organizeRun (cfg : OrgCfg) (m0 : ExtMap) (items : List Item) :
    RunState × List ItemOutcome :=
  let exclusionList := ((assocLookupL m0 "Exclusions").getD []).map pyLower
  organizeRunAux cfg exclusionList ⟨m0, 0, 0⟩ items

/-- Return value of `organize_downloads` (source line 461):
`return files_processed` — the files counter alone. -/
def organize_downloads (cfg : OrgCfg) (m0 : ExtMap) (items : List Item) : Nat :=
  (organizeRun cfg m0 items).1.files

def isMovedOut : ItemOutcome → Bool
  | .moved _ => true
  | _ => false

def isFolderMovedOut : ItemOutcome → Bool
  | .folderMoved => true
  | _ => false

/-- Outcomes that went through classification (states past the time
gate). -/
def reachedClassification : ItemOutcome → Bool
  | .moved _ => true
  | .moveFailed _ => true
  | .noMove => true
  | _ => false

/-! ## Collision-safe naming (source lines 294-298, repair path only)

`while new_path.exists(): new_filename = f"{base}_{counter}{ext}"` — the
candidates are `base ++ ext`, then `base_1`, `base_2`, ….  The loop is
modelled with fuel `|fs| + 1`: the candidate names are pairwise distinct
strings, so at most `|fs|` of them can be occupied and the real loop
always stops within that bound. -/

def candName (base ext : String) : Nat → String
  | 0 => base ++ ext
  | n + 1 => base ++ "_" ++ Nat.repr (n + 1) ++ ext

def findFreeNameAux (fs : List String) (base ext : String) :
    Nat → Nat → String
  | counter, 0 => base ++ "_" ++ Nat.repr counter ++ ext
  | counter, fuel + 1 =>
    let cand := base ++ "_" ++ Nat.repr counter ++ ext
    if cand ∈ fs then findFreeNameAux fs base ext (counter + 1) fuel else cand

def findFreeName (fs : List String) (base ext : String) : String :=
  if base ++ ext ∈ fs then findFreeNameAux fs base ext 1 (fs.length + 1)
  else base ++ ext

/-! ## Batch image renamer (`execute_image_renamer`, source lines 463-524)

The directory listing, per-file `Image.open` outcomes, the per-batch
oracle result (a filename-to-title mapping, `None` on total failure after
retries) and per-file `os.rename` outcomes are supplied by the
environment.  Note: the per-file rename target (lines 503-509) is derived
from the title alone — the directory is never consulted. -/

def startsWithChars : List Char → List Char → Bool
  | [], _ => true
  | _ :: _, [] => false
  | a :: as, b :: bs => a == b && startsWithChars as bs

def hasSub (needle : List Char) : List Char → Bool
  | [] => startsWithChars needle []
  | c :: rest => startsWithChars needle (c :: rest) || hasSub needle rest

def listEndsWith (l pat : List Char) : Bool :=
  startsWithChars pat.reverse l.reverse

/-- Eligibility filter (source line 472):
`f.name.lower().endswith(IMAGE_EXTENSIONS) and PROCESSED_SUFFIX not in f.name`. -/
def isEligibleImage (name : String) : Bool :=
  IMAGE_EXTENSIONS.any (fun e => listEndsWith (pyLower name).data e.data)
    && !(hasSub PROCESSED_SUFFIX.data name.data)

/-- Consecutive slices `all_files[i:i+n]` of the batching loop. -/
def chunksOf (n : Nat) (l : List String) : List (List String) :=
  go l.length l
where
  go : Nat → List String → List (List String)
    | 0, _ => []
    | _, [] => []
    | fuel + 1, l@(_ :: _) => l.take n :: go fuel (l.drop n)

/-- Target filename derived in the batch path (source lines 503-506):
cleaned title, processed-marker, original extension — no collision
check. -/
def batchTargetName (title ext : String) : String :=
  cleanTitleRename title ++ PROCESSED_SUFFIX ++ ext

structure RenamerEnv where
  openOk : String → Bool
  oracle : List String → Option (List (String × String))
  renameOk : String → Bool

def assocLookupS : List (String × String) → String → Option String
  | [], _ => none
  | (k, v) :: r, key => if k = key then some v else assocLookupS r key

structure BatchStepResult where
  renamedCount : Nat
  queued : List String
  renames : List (String × String)
deriving DecidableEq

/-- Result-processing loop over the successfully opened files of one
batch (source lines 496-514): a file missing from the oracle mapping is
queued; otherwise the derived name is computed and `os.rename` attempted,
a rename failure queueing the file. -/
def renamerProcessOpened (env : RenamerEnv) (rmap : List (String × String)) :
    List String → BatchStepResult
  | [] => ⟨0, [], []⟩
  | f :: rest =>
    match assocLookupS rmap f with
    | none =>
      let r := renamerProcessOpened env rmap rest
      ⟨r.renamedCount, f :: r.queued, r.renames⟩
    | some title =>
      let target := batchTargetName title (pySplitExtSuffix f)
      let r := renamerProcessOpened env rmap rest
      if env.renameOk f then
        ⟨r.renamedCount + 1, r.queued, (f, target) :: r.renames⟩
      else ⟨r.renamedCount, f :: r.queued, (f, target) :: r.renames⟩

/-- One batch (source lines 484-516): open every file, queue open
failures, submit the opened subset; on a `None` oracle result the whole
batch slice is queued (after the open failures already queued). -/
def renamerBatchStep (env : RenamerEnv) (batch : List String) : BatchStepResult :=
  let opened := batch.filter (fun f => env.openOk f)
  let openFailures := batch.filter (fun f => !(env.openOk f))
  if opened = [] then ⟨0, openFailures, []⟩
  else
    match env.oracle opened with
    | none => ⟨0, openFailures ++ batch, []⟩
    | some rmap =>
      let r := renamerProcessOpened env rmap opened
      ⟨r.renamedCount, openFailures ++ r.queued, r.renames⟩

/-- `execute_image_renamer` (source lines 463-524).  Returns the value of
`batch_processed_count` (the function's return value, line 524) together
with the final content of `failed_files_for_retry`.  The source appends
to that list throughout the loop but contains no call to
`retry_failed_file_renamer`; the list is discarded when the function
returns. -/
def executeImageRenamer (env : RenamerEnv) (dirListing : List String) :
    Nat × List String :=
  let allFiles := dirListing.filter isEligibleImage
  (chunksOf BATCH_SIZE allFiles).foldl
    (fun acc b =>
      let r := renamerBatchStep env b
      (acc.1 + r.renamedCount, acc.2 ++ r.queued))
    (0, [])

/-! ## Single-item repair (`retry_failed_file_renamer`, source lines 259-310)

The directory is a list of filenames; `renameFs` models a successful
`os.rename`.  The environment decides the outcome of each fallible step:
the initial rename to the temporary name, `Image.open`, the single oracle
call (`none` = the call or JSON parsing raised; `some none` = JSON without
a `short_title` key; `some (some t)` = parsed title `t`, where an empty
`t` raises `ValueError`), the final rename, and the restore rename in the
`except` block.  The restore also needs the temporary file to exist. -/

def renameFs (fs : List String) (src dst : String) : List String :=
  dst :: fs.erase src

structure RepairEnv where
  tempId : String
  renameTempOk : Bool
  openOk : Bool
  oracleTitle : Option (Option String)
  renameNewOk : Bool
  restoreOk : Bool

structure RepairResult where
  ok : Bool
  fs : List String
  fatal : Bool
deriving DecidableEq

/-- The `except` block (source lines 304-310): report failure, attempt to
rename the temporary file back; if that rename itself fails, log the
distinct FATAL message. -/
def restoreStep (env : RepairEnv) (fs : List String) (tempName original : String) :
    RepairResult :=
  if tempName ∈ fs ∧ env.restoreOk then
    ⟨false, renameFs fs tempName original, false⟩
  else ⟨false, fs, true⟩

def repairTempName (env : RepairEnv) (original : String) : String :=
  "temp_retry_" ++ env.tempId ++ pySplitExtSuffix original

def retryFailedFileRenamer (env : RepairEnv) (fs : List String)
    (original : String) : RepairResult :=
  let ext := pySplitExtSuffix original
  let tempName := repairTempName env original
  if env.renameTempOk ∧ original ∈ fs then
    let fs1 := renameFs fs original tempName
    let titleStep : Option String :=
      if !env.openOk then none
      else
        match env.oracleTitle with
        | none => none
        | some none => none
        | some (some t) => if t = "" then none else some t
    match titleStep with
    | some t =>
      let base := cleanTitleRename t ++ PROCESSED_SUFFIX
      let newName := findFreeName fs1 base ext
      if env.renameNewOk then ⟨true, renameFs fs1 tempName newName, false⟩
      else restoreStep env fs1 tempName original
    | none => restoreStep env fs1 tempName original
  else restoreStep env fs tempName original

/-! ## Concrete configurations and environments used by the examples -/

/-- All external operations succeed; the oracle itself always reports an
`APIError`; the time gate is bypassed (`process_all_files = true`). -/
def cfgDemo : OrgCfg :=
  ⟨true, 0, true, fun _ => true, fun _ => none, fun _ _ => ExtOutcome.apiError,
   fun _ => true, fun _ => true⟩

/-- Time-gating enabled (`process_all_files = false`), run start at
timestamp 1000000. -/
def cfgGateDemo : OrgCfg :=
  ⟨false, 1000000, true, fun _ => true, fun _ => none, fun _ _ => ExtOutcome.apiError,
   fun _ => true, fun _ => true⟩

/-- Code-analysis oracle returns a project folder named `My Scraper`. -/
def envCodeDemo : ClassifyEnv :=
  ⟨true, true, some ⟨"Scraper", "My Scraper"⟩, fun _ => ExtOutcome.apiError⟩

/-- Every extension-classification attempt raises `APIError`. -/
def envApiFail : ClassifyEnv := ⟨true, true, none, fun _ => ExtOutcome.apiError⟩

/-- The first extension-classification attempt raises a generic error. -/
def envGenFail : ClassifyEnv := ⟨true, true, none, fun _ => ExtOutcome.genError⟩

/-- The oracle answers structurally but with an empty required field. -/
def envEmptyRec : ClassifyEnv :=
  ⟨true, true, none, fun _ => ExtOutcome.success ⟨"", true⟩⟩

/-- Batch renamer environment: every image opens, the oracle titles
`photo.png` as `Sunset`, every rename succeeds. -/
def envBatchDemo : RenamerEnv :=
  ⟨fun _ => true, fun _ => some [("photo.png", "Sunset")], fun _ => true⟩

/-- Batch renamer environment in which `Image.open` always fails. -/
def envOpenFailDemo : RenamerEnv := ⟨fun _ => false, fun _ => none, fun _ => false⟩

/-- Repair environment: the temporary rename succeeds, then `Image.open`
fails; the restore rename succeeds. -/
def envRepairDemo : RepairEnv := ⟨"abcd1234", true, false, none, true, true⟩

/-! ## Helper lemmas for the claim theorems -/

/-! ### Lemmas about the category map -/

theorem assocLookupL_appendAt (m : ExtMap) (k e : String) :
    assocLookupL (appendAt m k e) k = (assocLookupL m k).map (fun vs => vs ++ [e]) := by
  induction m with
  | nil => rfl
  | cons p r ih =>
    obtain ⟨k1, v1⟩ := p
    by_cases h : k1 = k
    · simp [appendAt, assocLookupL, h]
    · simp [appendAt, assocLookupL, h, ih]

theorem assocLookupL_append_new (m : ExtMap) (k : String)
    (h : assocLookupL m k = none) : assocLookupL (m ++ [(k, [])]) k = some [] := by
  induction m with
  | nil => simp [assocLookupL]
  | cons p r ih =>
    obtain ⟨k1, v1⟩ := p
    by_cases hk : k1 = k
    · simp [assocLookupL, hk] at h
    · simp [assocLookupL, hk] at h ⊢
      exact ih h

theorem ruleLookup_isSome_of_mem (m : ExtMap) (k : String) (vs : List String)
    (e : String) (hk : assocLookupL m k = some vs) (he : e ∈ vs) :
    (ruleLookup m e).isSome := by
  induction m with
  | nil => simp [assocLookupL] at hk
  | cons p r ih =>
    obtain ⟨k1, v1⟩ := p
    by_cases hmem : e ∈ v1
    · simp [ruleLookup, hmem]
    · by_cases hkk : k1 = k
      · simp [assocLookupL, hkk] at hk
        subst hk
        exact absurd he hmem
      · simp [assocLookupL, hkk] at hk
        simp [ruleLookup, hmem]
        exact ih hk

/-- After `update_extension_map`, the lowered extension is in the list of
the sanitised category. -/
theorem update_mem (m : ExtMap) (ext folder : String) :
    pyLower ext ∈
      (assocLookupL (update_extension_map m ext folder) (sanitizeCategory folder)).getD [] := by
  unfold update_extension_map update_extension_map_run
  set safe := sanitizeCategory folder with hsafe
  set e := pyLower ext with he
  by_cases hk : hasKey m safe
  · simp only [hk, if_true]
    by_cases hmem : e ∈ (assocLookupL m safe).getD []
    · rw [if_pos hmem]
      exact hmem
    · simp only [hmem, if_false]
      cases hlk : assocLookupL m safe with
      | none => simp [hasKey, hlk] at hk
      | some vs =>
        have h2 := assocLookupL_appendAt m safe e
        rw [hlk] at h2
        rw [hlk] at hmem
        simp only [Option.getD_some] at hmem
        simp [h2]
  · simp only [if_neg hk]
    have hnone : assocLookupL m safe = none := by
      cases hlk : assocLookupL m safe with
      | none => rfl
      | some vs => simp [hasKey, hlk] at hk
    have hnew := assocLookupL_append_new m safe hnone
    by_cases hmem : e ∈ (assocLookupL (m ++ [(safe, [])]) safe).getD []
    · rw [hnew] at hmem
      simp at hmem
    · rw [if_neg hmem]
      have h2 := assocLookupL_appendAt (m ++ [(safe, [])]) safe e
      rw [hnew] at h2
      simp [h2]

theorem update_hasKey (m : ExtMap) (ext folder : String) :
    hasKey (update_extension_map m ext folder) (sanitizeCategory folder) = true := by
  have h := update_mem m ext folder
  unfold hasKey
  cases hlk : assocLookupL (update_extension_map m ext folder) (sanitizeCategory folder) with
  | none => rw [hlk] at h; simp at h
  | some vs => simp

/-- Recording the same `(extension, folder)` pair a second time leaves the
map unchanged: the second call finds the lowered extension already in the
sanitised category's list and takes the no-append branch. -/
theorem update_idempotent (m : ExtMap) (ext folder : String) :
    update_extension_map (update_extension_map m ext folder) ext folder
      = update_extension_map m ext folder := by
  have key : ∀ m' : ExtMap, hasKey m' (sanitizeCategory folder) = true →
      pyLower ext ∈ (assocLookupL m' (sanitizeCategory folder)).getD [] →
      update_extension_map m' ext folder = m' := by
    intro m' hk hmem
    simp only [update_extension_map, update_extension_map_run]
    rw [if_pos hk, if_pos hmem]
  exact key _ (update_hasKey m ext folder) (update_mem m ext folder)

/-- The in-memory map produced by `update_extension_map` does not depend
on whether the JSON rewrite succeeds: the append happens before the
`try`-guarded write (source lines 146-154). -/
theorem update_run_map_ignores_write (m : ExtMap) (ext folder : String) :
    (update_extension_map_run m ext folder false).1
      = (update_extension_map_run m ext folder true).1 := by
  simp only [update_extension_map_run]
  by_cases h : pyLower ext ∈
      (assocLookupL (if hasKey m (sanitizeCategory folder) then m
        else m ++ [(sanitizeCategory folder, [])]) (sanitizeCategory folder)).getD []
  · rw [if_pos h, if_pos h]
  · rw [if_neg h, if_neg h]

/-- After an update, the rule-based lookup of the lowered extension
succeeds (some category contains it), so the extension-classification
oracle is no longer consulted for it. -/
theorem ruleLookup_after_update (m : ExtMap) (ext folder : String) :
    (ruleLookup (update_extension_map m ext folder) (pyLower ext)).isSome := by
  have h := update_mem m ext folder
  cases hlk : assocLookupL (update_extension_map m ext folder) (sanitizeCategory folder) with
  | none => rw [hlk] at h; simp at h
  | some vs =>
    rw [hlk] at h
    simp only [Option.getD_some] at h
    exact ruleLookup_isSome_of_mem _ _ vs _ hlk h


/-- Characterisation of one `update_extension_map` call: the sanitised
category's list gains the lowered extension exactly when it was not
already there. -/
theorem update_getD (m : ExtMap) (ext folder : String) :
    (assocLookupL (update_extension_map m ext folder) (sanitizeCategory folder)).getD []
      = (if pyLower ext ∈ (assocLookupL m (sanitizeCategory folder)).getD []
          then (assocLookupL m (sanitizeCategory folder)).getD []
          else (assocLookupL m (sanitizeCategory folder)).getD [] ++ [pyLower ext]) := by
  simp only [update_extension_map, update_extension_map_run]
  set safe := sanitizeCategory folder
  set e := pyLower ext
  by_cases hk : hasKey m safe
  · rw [if_pos hk]
    by_cases hmem : e ∈ (assocLookupL m safe).getD []
    · rw [if_pos hmem, if_pos hmem]
    · rw [if_neg hmem, if_neg hmem]
      have h2 := assocLookupL_appendAt m safe e
      cases hlk : assocLookupL m safe with
      | none => simp [hasKey, hlk] at hk
      | some vs =>
        rw [hlk] at h2
        simp [h2, hlk]
  · rw [if_neg hk]
    have hnone : assocLookupL m safe = none := by
      cases hlk : assocLookupL m safe with
      | none => rfl
      | some vs => simp [hasKey, hlk] at hk
    have hnew := assocLookupL_append_new m safe hnone
    simp [hnew, hnone, assocLookupL_appendAt]

/-- When the rule lookup resolves the extension, the escalation oracle is
never consulted, the map is untouched, and outside the `Code` category no
oracle call at all is made. -/
theorem classifyFile_rule_no_escalation (m : ExtMap) (env : ClassifyEnv)
    (ext cat : String) (h : ruleLookup m ext = some cat) :
    OracleCall.extClassify ∉ (classifyFile m env ext).calls
    ∧ (classifyFile m env ext).extMap = m
    ∧ (cat ≠ "Code" → (classifyFile m env ext).calls = []) := by
  simp only [classifyFile, h]
  by_cases hc : cat = "Code"
  · rw [if_pos hc]
    by_cases h1 : env.clientReady = false
    · rw [if_pos h1]
      exact ⟨by simp, rfl, fun _ => rfl⟩
    · rw [if_neg h1]
      by_cases h2 : env.codeFileReadable = false
      · rw [if_pos h2]
        exact ⟨by simp, rfl, fun _ => rfl⟩
      · rw [if_neg h2]
        cases hres : env.codeResult with
        | none =>
          dsimp only
          exact ⟨by simp, rfl, fun hne => (hne hc).elim⟩
        | some info =>
          dsimp only
          by_cases h3 : info.suggested_folder ≠ ""
          · rw [if_pos h3]
            exact ⟨by simp, rfl, fun hne => (hne hc).elim⟩
          · rw [if_neg h3]
            exact ⟨by simp, rfl, fun hne => (hne hc).elim⟩
  · rw [if_neg hc]
    exact ⟨by simp, rfl, fun _ => rfl⟩

/-- The files counter increases exactly on a `moved` outcome. -/
theorem processItem_files (cfg : OrgCfg) (excl : List String) (st : RunState)
    (item : Item) :
    (processItem cfg excl st item).1.files
      = st.files + (if isMovedOut (processItem cfg excl st item).2.1 then 1 else 0) := by
  simp only [processItem]
  split_ifs <;> simp_all [isMovedOut]

/-- The folders counter increases exactly on a `folderMoved` outcome. -/
theorem processItem_folders (cfg : OrgCfg) (excl : List String) (st : RunState)
    (item : Item) :
    (processItem cfg excl st item).1.folders
      = st.folders + (if isFolderMovedOut (processItem cfg excl st item).2.1 then 1 else 0) := by
  simp only [processItem]
  split_ifs <;> simp_all [isFolderMovedOut]

theorem organizeRunAux_files (cfg : OrgCfg) (excl : List String) :
    ∀ (items : List Item) (st : RunState),
      (organizeRunAux cfg excl st items).1.files
        = st.files + ((organizeRunAux cfg excl st items).2.countP isMovedOut) := by
  intro items
  induction items with
  | nil => intro st; simp [organizeRunAux]
  | cons item rest ih =>
    intro st
    have hp := processItem_files cfg excl st item
    have hq := ih (processItem cfg excl st item).1
    simp only [organizeRunAux]
    rw [List.countP_cons, hq, hp]
    by_cases hmv : isMovedOut (processItem cfg excl st item).2.1
    all_goals simp [hmv]
    all_goals omega

theorem organizeRunAux_folders (cfg : OrgCfg) (excl : List String) :
    ∀ (items : List Item) (st : RunState),
      (organizeRunAux cfg excl st items).1.folders
        = st.folders + ((organizeRunAux cfg excl st items).2.countP isFolderMovedOut) := by
  intro items
  induction items with
  | nil => intro st; simp [organizeRunAux]
  | cons item rest ih =>
    intro st
    have hp := processItem_folders cfg excl st item
    have hq := ih (processItem cfg excl st item).1
    simp only [organizeRunAux]
    rw [List.countP_cons, hq, hp]
    by_cases hmv : isFolderMovedOut (processItem cfg excl st item).2.1
    all_goals simp [hmv]
    all_goals omega

/-- The collision loop returns the candidate with the first free index,
provided the loop has enough fuel left. -/
theorem findFreeNameAux_policy (fs : List String) (base ext : String) :
    ∀ (m fuel counter : Nat), m ≤ fuel →
      (∀ j, j < m → (base ++ "_" ++ Nat.repr (counter + j) ++ ext) ∈ fs) →
      (base ++ "_" ++ Nat.repr (counter + m) ++ ext) ∉ fs →
      findFreeNameAux fs base ext counter fuel
        = base ++ "_" ++ Nat.repr (counter + m) ++ ext := by
  intro m
  induction m with
  | zero =>
    intro fuel counter _ _ hfree
    rw [Nat.add_zero] at hfree ⊢
    cases fuel with
    | zero => simp [findFreeNameAux]
    | succ f =>
      simp only [findFreeNameAux]
      rw [if_neg hfree]
  | succ mm ih =>
    intro fuel counter hm hin hfree
    cases fuel with
    | zero => omega
    | succ f =>
      simp only [findFreeNameAux]
      have h0 : (base ++ "_" ++ Nat.repr (counter + 0) ++ ext) ∈ fs :=
        hin 0 (Nat.succ_pos mm)
      rw [Nat.add_zero] at h0
      rw [if_pos h0]
      have hin2 : ∀ j, j < mm → (base ++ "_" ++ Nat.repr (counter + 1 + j) ++ ext) ∈ fs := by
        intro j hj
        have harith : counter + 1 + j = counter + (j + 1) := by omega
        rw [harith]
        exact hin (j + 1) (by omega)
      have hfree2 : (base ++ "_" ++ Nat.repr (counter + 1 + mm) ++ ext) ∉ fs := by
        have harith : counter + 1 + mm = counter + (mm + 1) := by omega
        rw [harith]
        exact hfree
      have := ih f (counter + 1) (by omega) hin2 hfree2
      rw [this]
      have harith : counter + 1 + mm = counter + (mm + 1) := by omega
      rw [harith]

/-- The single-item repair path follows the §4.4 collision policy: the
chosen name is `base ++ ext` when free, and otherwise the first free
`base_N ++ ext`.  The bound `n ≤ fs.length` is an artifact of the fuel;
the candidates are pairwise distinct, so the first free index never
exceeds the directory size. -/
theorem findFreeName_policy (fs : List String) (base ext : String) (n : Nat)
    (hn : n ≤ fs.length)
    (hocc : ∀ k, k < n → candName base ext k ∈ fs)
    (hfree : candName base ext n ∉ fs) :
    findFreeName fs base ext = candName base ext n := by
  cases n with
  | zero =>
    unfold findFreeName
    rw [if_neg (by simpa [candName] using hfree)]
    rfl
  | succ nn =>
    unfold findFreeName
    have h0 : base ++ ext ∈ fs := by
      simpa [candName] using hocc 0 (Nat.succ_pos nn)
    rw [if_pos h0]
    have hin : ∀ j, j < nn → (base ++ "_" ++ Nat.repr (1 + j) ++ ext) ∈ fs := by
      intro j hj
      have harith : 1 + j = j + 1 := by omega
      rw [harith]
      simpa [candName] using hocc (j + 1) (by omega)
    have hfree2 : (base ++ "_" ++ Nat.repr (1 + nn) ++ ext) ∉ fs := by
      have harith : 1 + nn = nn + 1 := by omega
      rw [harith]
      simpa [candName] using hfree
    have := findFreeNameAux_policy fs base ext nn (fs.length + 1) 1 (by omega) hin hfree2
    rw [this]
    have harith : 1 + nn = nn + 1 := by omega
    rw [harith]
    simp [candName]

/-- Every rename attempted by the batch result-processing loop targets
exactly the title-derived name; the directory is never consulted. -/
theorem renamerProcessOpened_renames (env : RenamerEnv) (rmap : List (String × String)) :
    ∀ (l : List String) (f target : String),
      (f, target) ∈ (renamerProcessOpened env rmap l).renames →
      ∃ t, assocLookupS rmap f = some t
        ∧ target = batchTargetName t (pySplitExtSuffix f) := by
  intro l
  induction l with
  | nil =>
    intro f target h
    simp [renamerProcessOpened] at h
  | cons a rest ih =>
    intro f target h
    simp only [renamerProcessOpened] at h
    cases hlk : assocLookupS rmap a with
    | none =>
      rw [hlk] at h
      dsimp only at h
      exact ih f target h
    | some t =>
      rw [hlk] at h
      dsimp only at h
      by_cases hrn : env.renameOk a
      · rw [if_pos hrn] at h
        dsimp only at h
        rcases List.mem_cons.mp h with heq | hrest
        · obtain ⟨hf, htg⟩ := Prod.mk.injEq .. ▸ heq
          refine ⟨t, ?_, ?_⟩
          · rw [hf]; exact hlk
          · rw [htg, hf]
        · exact ih f target hrest
      · rw [if_neg hrn] at h
        dsimp only at h
        rcases List.mem_cons.mp h with heq | hrest
        · obtain ⟨hf, htg⟩ := Prod.mk.injEq .. ▸ heq
          refine ⟨t, ?_, ?_⟩
          · rw [hf]; exact hlk
          · rw [htg, hf]
        · exact ih f target hrest

/-- Lifting of `renamerProcessOpened_renames` to a whole batch step. -/
theorem renamerBatchStep_renames (env : RenamerEnv) (batch : List String)
    (rmap : List (String × String)) (f target : String)
    (horacle : env.oracle (batch.filter (fun g => env.openOk g)) = some rmap)
    (hmem : (f, target) ∈ (renamerBatchStep env batch).renames) :
    ∃ t, assocLookupS rmap f = some t
      ∧ target = batchTargetName t (pySplitExtSuffix f) := by
  unfold renamerBatchStep at hmem
  by_cases hop : batch.filter (fun g => env.openOk g) = []
  · rw [if_pos hop] at hmem
    simp at hmem
  · rw [if_neg hop] at hmem
    rw [horacle] at hmem
    dsimp only at hmem
    exact renamerProcessOpened_renames env rmap _ f target hmem

/-! ## Claim theorems -/

/-- C1 counterexample: with the directory `["Sunset_DESC.png", "photo.png"]`
and the oracle titling `photo.png` as `Sunset`, the batch rename path
(source lines 503-511) targets the already-occupied name
`Sunset_DESC.png`: it appends no numeric counter, although the collision
policy — implemented only in the single-item repair path, modelled by
`findFreeName` — would produce the free name `Sunset_DESC_1.png`. -/
theorem c1_batch_path_no_collision_counter :
    (renamerBatchStep envBatchDemo ["photo.png"]).renames
      = [("photo.png", "Sunset_DESC.png")]
    ∧ "Sunset_DESC.png" ∈ ["Sunset_DESC.png", "photo.png"]
    ∧ "Sunset_DESC.png" ≠ "photo.png"
    ∧ findFreeName ["Sunset_DESC.png", "photo.png"] "Sunset_DESC" ".png"
      = "Sunset_DESC_1.png" :=
  ⟨by decide, by decide, by decide, by decide⟩

/-- C1 (amended): the numeric-counter collision policy (`X`, then `X_1`,
`X_2`, … until a free name is found) holds for the single-item repair
path, while the batch rename path uses the title-derived name
unconditionally: every rename it attempts targets exactly
`batchTargetName title ext`, whatever the directory contains. -/
theorem c1_amended_collision_policy_repair_only
    (fs : List String) (base ext : String) (n : Nat)
    (hn : n ≤ fs.length)
    (hocc : ∀ k, k < n → candName base ext k ∈ fs)
    (hfree : candName base ext n ∉ fs)
    (env : RenamerEnv) (batch : List String) (rmap : List (String × String))
    (f target : String)
    (horacle : env.oracle (batch.filter (fun g => env.openOk g)) = some rmap)
    (hmem : (f, target) ∈ (renamerBatchStep env batch).renames) :
    findFreeName fs base ext = candName base ext n
    ∧ ∃ t, assocLookupS rmap f = some t
        ∧ target = batchTargetName t (pySplitExtSuffix f) :=
  ⟨findFreeName_policy fs base ext n hn hocc hfree,
   renamerBatchStep_renames env batch rmap f target horacle hmem⟩

/-- Witness for the amended C1 theorem, at the counterexample's directory. -/
theorem c1_amended_collision_policy_repair_only_witness :
    findFreeName ["Sunset_DESC.png", "photo.png"] "Sunset_DESC" ".png"
      = candName "Sunset_DESC" ".png" 1
    ∧ ∃ t, assocLookupS [("photo.png", "Sunset")] "photo.png" = some t
        ∧ "Sunset_DESC.png" = batchTargetName t (pySplitExtSuffix "photo.png") :=
  c1_amended_collision_policy_repair_only
    ["Sunset_DESC.png", "photo.png"] "Sunset_DESC" ".png" 1
    (by decide) (by decide) (by decide)
    envBatchDemo ["photo.png"] [("photo.png", "Sunset")]
    "photo.png" "Sunset_DESC.png" (by decide) (by decide)

/-- C2 (code bug): failing input — the eligible image `bad.png` fails to
open.  It lands in `failed_files_for_retry` and is still there when
`execute_image_renamer` returns: `retry_failed_file_renamer` (source
lines 259-310) has no call site anywhere in the source, so the queue is
discarded unconsumed and no single-item repair call is ever made. -/
theorem c2_retry_queue_never_consumed :
    executeImageRenamer envOpenFailDemo ["bad.png"] = (0, ["bad.png"]) := by
  decide

/-- C3 counterexample: `.py` is present in the category map (category
`Code`), yet classifying a `.py` file performs a content-analysis oracle
call (`analyze_code_content`, source lines 424-431), so "no oracle call
of any kind occurs for such a file" fails. -/
theorem c3_mapped_code_file_calls_oracle :
    ruleLookup defaultExtMap ".py" = some "Code"
    ∧ (classifyFile defaultExtMap envCodeDemo ".py").calls = [OracleCall.codeAnalyze] :=
  ⟨by decide, by decide⟩

/-- C3 (amended): a file whose extension is in the category map is
resolved without any extension-classification oracle call and without
touching the map; when the matched category is not `Code`, no oracle call
at all occurs (a `Code` match additionally triggers the content-analysis
pass). -/
theorem c3_amended_no_extension_oracle_for_mapped (m : ExtMap) (env : ClassifyEnv)
    (ext cat : String) (h : ruleLookup m ext = some cat) :
    OracleCall.extClassify ∉ (classifyFile m env ext).calls
    ∧ (classifyFile m env ext).extMap = m
    ∧ (cat ≠ "Code" → (classifyFile m env ext).calls = []) :=
  classifyFile_rule_no_escalation m env ext cat h

/-- Witness for the amended C3 theorem at `.pdf` (category `Documents`). -/
theorem c3_amended_no_extension_oracle_for_mapped_witness :
    OracleCall.extClassify ∉ (classifyFile defaultExtMap envApiFail ".pdf").calls
    ∧ (classifyFile defaultExtMap envApiFail ".pdf").extMap = defaultExtMap
    ∧ (classifyFile defaultExtMap envApiFail ".pdf").calls = [] :=
  ⟨(c3_amended_no_extension_oracle_for_mapped defaultExtMap envApiFail ".pdf" "Documents"
      (by decide)).1,
   (c3_amended_no_extension_oracle_for_mapped defaultExtMap envApiFail ".pdf" "Documents"
      (by decide)).2.1,
   (c3_amended_no_extension_oracle_for_mapped defaultExtMap envApiFail ".pdf" "Documents"
      (by decide)).2.2 (by decide)⟩

/-- C4 counterexample: a run that relocates one folder and a run over an
empty staging directory return the same value, although their
folders-relocated counts differ — the return value (source line 461) is
the single `files_processed` counter, not a (files, folders) pair. -/
theorem c4_return_value_not_a_pair :
    organize_downloads cfgDemo defaultExtMap [⟨"mydir", true, 0⟩]
      = organize_downloads cfgDemo defaultExtMap []
    ∧ (organizeRun cfgDemo defaultExtMap [⟨"mydir", true, 0⟩]).1.folders
      ≠ (organizeRun cfgDemo defaultExtMap []).1.folders :=
  ⟨by decide, by decide⟩

/-- C4 (amended): the run's outcome returned to the caller is the single
count of files moved (equal to the number of `moved` outcomes); the
folders-relocated count is tracked and logged internally but is not part
of the return value. -/
theorem c4_amended_single_files_count (cfg : OrgCfg) (m0 : ExtMap) (items : List Item) :
    organize_downloads cfg m0 items
      = ((organizeRun cfg m0 items).2.countP isMovedOut)
    ∧ (organizeRun cfg m0 items).1.folders
      = ((organizeRun cfg m0 items).2.countP isFolderMovedOut) := by
  unfold organize_downloads organizeRun
  constructor
  · have h := organizeRunAux_files cfg
      (((assocLookupL m0 "Exclusions").getD []).map pyLower) items ⟨m0, 0, 0⟩
    simpa using h
  · have h := organizeRunAux_folders cfg
      (((assocLookupL m0 "Exclusions").getD []).map pyLower) items ⟨m0, 0, 0⟩
    simpa using h

/-- C5 counterexample: a staging entry that is a directory named `.temp` —
its lowercase name is in the exclusion set — is nevertheless moved: the
folder-handling branch (source lines 380-393) runs before the exclusion
check (line 401), which only files reach. -/
theorem c5_excluded_directory_still_moved :
    pyLower ".temp" ∈ (((assocLookupL defaultExtMap "Exclusions").getD []).map pyLower)
    ∧ (organizeRun cfgDemo defaultExtMap [⟨".temp", true, 0⟩]).2
      = [ItemOutcome.folderMoved] :=
  ⟨by decide, by decide⟩

/-- C5 (amended): for every file (non-directory) staging entry whose
lowercase name or lowercase extension matches an exclusion entry up to
case, the run skips it (the exclusion skip, or the config-file skip that
precedes it), performs no oracle call, and leaves counters and map
untouched; directories are relocated before the exclusion check and are
not covered by it. -/
theorem c5_amended_excluded_file_skipped (cfg : OrgCfg) (m0 : ExtMap)
    (excl : List String) (st : RunState) (item : Item) (raw : String)
    (hexcl : excl = ((assocLookupL m0 "Exclusions").getD []).map pyLower)
    (hfile : item.isDir = false)
    (hraw : raw ∈ (assocLookupL m0 "Exclusions").getD [])
    (hmatch : pyLower item.name = pyLower raw
      ∨ pyLower (pySuffix item.name) = pyLower raw) :
    ((processItem cfg excl st item).2.1 = ItemOutcome.configSkip
      ∨ (processItem cfg excl st item).2.1 = ItemOutcome.excludedSkip)
    ∧ (processItem cfg excl st item).1 = st
    ∧ (processItem cfg excl st item).2.2 = [] := by
  subst hexcl
  have hmem : pyLower item.name ∈ ((assocLookupL m0 "Exclusions").getD []).map pyLower
      ∨ pyLower (pySuffix item.name) ∈ ((assocLookupL m0 "Exclusions").getD []).map pyLower := by
    rcases hmatch with h | h
    · exact Or.inl (by rw [h]; exact List.mem_map_of_mem pyLower hraw)
    · exact Or.inr (by rw [h]; exact List.mem_map_of_mem pyLower hraw)
  simp only [processItem]
  rw [if_neg (by simp [hfile])]
  by_cases hcfg : item.name = CONFIG_NAME
  · rw [if_pos hcfg]
    exact ⟨Or.inl rfl, rfl, rfl⟩
  · rw [if_neg hcfg, if_pos hmem]
    exact ⟨Or.inr rfl, rfl, rfl⟩

/-- Witness for the amended C5 theorem: `readme.MD` versus the exclusion
entry `README.md` (case-insensitive match on the literal filename). -/
theorem c5_amended_excluded_file_skipped_witness :
    ((processItem cfgDemo [".temp", ".lock", "readme.md", "desktop.ini"]
        ⟨defaultExtMap, 0, 0⟩ ⟨"readme.MD", false, 0⟩).2.1 = ItemOutcome.configSkip
      ∨ (processItem cfgDemo [".temp", ".lock", "readme.md", "desktop.ini"]
        ⟨defaultExtMap, 0, 0⟩ ⟨"readme.MD", false, 0⟩).2.1 = ItemOutcome.excludedSkip)
    ∧ (processItem cfgDemo [".temp", ".lock", "readme.md", "desktop.ini"]
        ⟨defaultExtMap, 0, 0⟩ ⟨"readme.MD", false, 0⟩).1 = ⟨defaultExtMap, 0, 0⟩
    ∧ (processItem cfgDemo [".temp", ".lock", "readme.md", "desktop.ini"]
        ⟨defaultExtMap, 0, 0⟩ ⟨"readme.MD", false, 0⟩).2.2 = [] :=
  c5_amended_excluded_file_skipped cfgDemo defaultExtMap
    [".temp", ".lock", "readme.md", "desktop.ini"] ⟨defaultExtMap, 0, 0⟩
    ⟨"readme.MD", false, 0⟩ "README.md" (by decide) rfl (by decide) (by decide)

/-- C6: the time gate (source lines 405-410) for files that reach it
(non-directory, not the config file, not excluded): with the process-all
flag off, a file modified less than 24 hours before run start is skipped
for this run with no oracle call and no state change; with the flag set
the mtime check is bypassed and the file proceeds to classification
whatever its timestamp. -/
theorem c6_time_gating (cfg : OrgCfg) (excl : List String) (st : RunState) (item : Item)
    (hfile : item.isDir = false)
    (hcfgname : item.name ≠ CONFIG_NAME)
    (hex1 : pyLower item.name ∉ excl)
    (hex2 : pyLower (pySuffix item.name) ∉ excl) :
    (cfg.processAll = false → cfg.now - item.mtime < 86400 →
      (processItem cfg excl st item).2.1 = ItemOutcome.recentSkip
      ∧ (processItem cfg excl st item).1 = st
      ∧ (processItem cfg excl st item).2.2 = [])
    ∧ (cfg.processAll = true →
      reachedClassification (processItem cfg excl st item).2.1 = true) := by
  simp only [processItem]
  rw [if_neg (by simp [hfile]), if_neg hcfgname,
      if_neg (by rw [not_or]; exact ⟨hex1, hex2⟩)]
  constructor
  · intro hpa hrecent
    have hgate : ¬cfg.processAll = true ∧ cutoffTime cfg.now ≤ item.mtime := by
      refine ⟨by simp [hpa], ?_⟩
      unfold cutoffTime
      omega
    rw [if_pos hgate]
    exact ⟨rfl, rfl, rfl⟩
  · intro hpa
    have hgate : ¬(¬cfg.processAll = true ∧ cutoffTime cfg.now ≤ item.mtime) :=
      fun hcon => hcon.1 hpa
    rw [if_neg hgate]
    split_ifs <;> simp [reachedClassification]

/-- Witness for the C6 theorem: run start at 1000000, file modified at
999999 (1 second before run start), time-gating enabled: the file is
recent-skipped with no oracle call and no state change. -/
theorem c6_time_gating_witness :
    (processItem cfgGateDemo ["x"] ⟨defaultExtMap, 0, 0⟩
        ⟨"report.pdf", false, 999999⟩).2.1 = ItemOutcome.recentSkip
    ∧ (processItem cfgGateDemo ["x"] ⟨defaultExtMap, 0, 0⟩
        ⟨"report.pdf", false, 999999⟩).1 = ⟨defaultExtMap, 0, 0⟩
    ∧ (processItem cfgGateDemo ["x"] ⟨defaultExtMap, 0, 0⟩
        ⟨"report.pdf", false, 999999⟩).2.2 = [] :=
  (c6_time_gating cfgGateDemo ["x"] ⟨defaultExtMap, 0, 0⟩ ⟨"report.pdf", false, 999999⟩
    (by decide) (by decide) (by decide) (by decide)).1 rfl (by decide)

/-- C7: `update_extension_map` records the pair
`(sanitizeCategory folder, pyLower ext)`: the sanitised category's list
gains the lowered extension exactly when it is not already present, and
recording the same pair a second time leaves the whole map unchanged — no
duplicate entry is ever created within one category. -/
theorem c7_record_normalizes_and_dedups (m : ExtMap) (ext folder : String) :
    ((assocLookupL (update_extension_map m ext folder) (sanitizeCategory folder)).getD []
      = if pyLower ext ∈ (assocLookupL m (sanitizeCategory folder)).getD []
         then (assocLookupL m (sanitizeCategory folder)).getD []
         else (assocLookupL m (sanitizeCategory folder)).getD [] ++ [pyLower ext])
    ∧ update_extension_map (update_extension_map m ext folder) ext folder
      = update_extension_map m ext folder :=
  ⟨update_getD m ext folder, update_idempotent m ext folder⟩

/-- C8: the extension-classification call is retried up to `MAX_RETRIES`
attempts on `APIError` (one `RETRY_DELAY` sleep per failed attempt, so
exhaustion records `MAX_RETRIES` calls and `MAX_RETRIES` sleeps); a
generic exception ends the attempt after a single call; a structural
success with an empty required field is not retried and falls back; and
in each failure mode the file is classified into `Unsorted_Agent_Failed`. -/
theorem c8_escalation_retry_and_fallback (m : ExtMap) (ext : String)
    (envA envB envC : ClassifyEnv)
    (hmap : ruleLookup m ext = none)
    (hA0 : envA.clientReady = true)
    (hA : ∀ k, k < MAX_RETRIES → envA.extOracle k = ExtOutcome.apiError)
    (hB0 : envB.clientReady = true)
    (hB : envB.extOracle 0 = ExtOutcome.genError)
    (hC0 : envC.clientReady = true)
    (hC : envC.extOracle 0 = ExtOutcome.success ⟨"", true⟩) :
    (getFolderRecommendation envA.clientReady envA.extOracle
        = ⟨none, MAX_RETRIES, MAX_RETRIES⟩
      ∧ (classifyFile m envA ext).dest = Dest.plain "Unsorted_Agent_Failed"
      ∧ (classifyFile m envA ext).calls
        = List.replicate MAX_RETRIES OracleCall.extClassify)
    ∧ (getFolderRecommendation envB.clientReady envB.extOracle = ⟨none, 1, 0⟩
      ∧ (classifyFile m envB ext).dest = Dest.plain "Unsorted_Agent_Failed"
      ∧ (classifyFile m envB ext).calls = [OracleCall.extClassify])
    ∧ ((classifyFile m envC ext).dest = Dest.plain "Unsorted_Agent_Failed"
      ∧ (classifyFile m envC ext).calls = [OracleCall.extClassify]) := by
  have hA1 := hA 0 (by decide)
  have hA2 := hA 1 (by decide)
  have hA3 := hA 2 (by decide)
  have hgA : getFolderRecommendation envA.clientReady envA.extOracle
      = ⟨none, MAX_RETRIES, MAX_RETRIES⟩ := by
    simp [getFolderRecommendation, hA0, MAX_RETRIES, getFolderRecAux, hA1, hA2, hA3]
  have hgB : getFolderRecommendation envB.clientReady envB.extOracle = ⟨none, 1, 0⟩ := by
    simp [getFolderRecommendation, hB0, MAX_RETRIES, getFolderRecAux, hB]
  have hgC : getFolderRecommendation envC.clientReady envC.extOracle
      = ⟨some ⟨"", true⟩, 1, 0⟩ := by
    simp [getFolderRecommendation, hC0, MAX_RETRIES, getFolderRecAux, hC]
  refine ⟨⟨hgA, ?_, ?_⟩, ⟨hgB, ?_, ?_⟩, ?_, ?_⟩ <;>
    simp [classifyFile, hmap, hgA, hgB, hgC, MAX_RETRIES, List.replicate]

/-- Witness for the C8 theorem at the unmapped extension `.xyz`. -/
theorem c8_escalation_retry_and_fallback_witness :
    (getFolderRecommendation envApiFail.clientReady envApiFail.extOracle
        = ⟨none, MAX_RETRIES, MAX_RETRIES⟩
      ∧ (classifyFile defaultExtMap envApiFail ".xyz").dest
        = Dest.plain "Unsorted_Agent_Failed"
      ∧ (classifyFile defaultExtMap envApiFail ".xyz").calls
        = List.replicate MAX_RETRIES OracleCall.extClassify)
    ∧ (getFolderRecommendation envGenFail.clientReady envGenFail.extOracle = ⟨none, 1, 0⟩
      ∧ (classifyFile defaultExtMap envGenFail ".xyz").dest
        = Dest.plain "Unsorted_Agent_Failed"
      ∧ (classifyFile defaultExtMap envGenFail ".xyz").calls = [OracleCall.extClassify])
    ∧ ((classifyFile defaultExtMap envEmptyRec ".xyz").dest
        = Dest.plain "Unsorted_Agent_Failed"
      ∧ (classifyFile defaultExtMap envEmptyRec ".xyz").calls = [OracleCall.extClassify]) :=
  c8_escalation_retry_and_fallback defaultExtMap ".xyz" envApiFail envGenFail envEmptyRec
    (by decide) rfl (fun _ _ => rfl) rfl rfl rfl rfl

/-- C9: in a single-item repair where the rename to the temporary name
succeeded and any later step fails (open error, oracle or parse error,
missing or empty title, rename error), the engine reports failure and —
whenever the restore rename itself succeeds — renames the temporary file
back to the exact original name, leaving the directory unchanged up to
permutation; the distinct fatal condition is logged only when the restore
rename fails. -/
theorem c9_repair_restores_exact_original (env : RepairEnv) (fs : List String)
    (original : String)
    (htmp : env.renameTempOk = true)
    (hmem : original ∈ fs)
    (hfail : env.openOk = false ∨ env.oracleTitle = none ∨ env.oracleTitle = some none
      ∨ env.oracleTitle = some (some "") ∨ env.renameNewOk = false) :
    (retryFailedFileRenamer env fs original).ok = false
    ∧ (env.restoreOk = true →
        (retryFailedFileRenamer env fs original).fs = original :: fs.erase original
        ∧ (retryFailedFileRenamer env fs original).fs.Perm fs
        ∧ (retryFailedFileRenamer env fs original).fatal = false)
    ∧ ((retryFailedFileRenamer env fs original).fatal = true →
        env.restoreOk = false) := by
  have hreach : retryFailedFileRenamer env fs original
      = restoreStep env (renameFs fs original (repairTempName env original))
          (repairTempName env original) original := by
    simp only [retryFailedFileRenamer]
    rw [if_pos (show env.renameTempOk = true ∧ original ∈ fs from ⟨htmp, hmem⟩)]
    rcases hfail with h | h | h | h | h
    · simp [h]
    · simp [h]
    · simp [h]
    · simp [h]
    · cases hopen : env.openOk with
      | false => simp [hopen]
      | true =>
        cases horc : env.oracleTitle with
        | none => simp [hopen, horc]
        | some t0 =>
          cases t0 with
          | none => simp [hopen, horc]
          | some t =>
            by_cases ht : t = ""
            · simp [hopen, horc, ht]
            · simp [hopen, horc, ht, h]
  rw [hreach]
  have htmem : repairTempName env original
      ∈ renameFs fs original (repairTempName env original) :=
    List.mem_cons_self _ _
  by_cases hres : env.restoreOk = true
  · unfold restoreStep
    rw [if_pos ⟨htmem, hres⟩]
    refine ⟨rfl, fun _ => ⟨?_, ?_, rfl⟩, fun hcon => by simp at hcon⟩
    · simp [renameFs, List.erase_cons_head]
    · simp only [renameFs, List.erase_cons_head]
      exact (List.perm_cons_erase hmem).symm
  · unfold restoreStep
    rw [if_neg (fun hcon => hres hcon.2)]
    refine ⟨rfl, fun hr => absurd hr hres, fun _ => ?_⟩
    cases hb : env.restoreOk with
    | false => rfl
    | true => exact absurd hb hres

/-- Witness for the C9 theorem: the temporary rename succeeds, then
`Image.open` fails, and the restore rename succeeds. -/
theorem c9_repair_restores_exact_original_witness :
    (retryFailedFileRenamer envRepairDemo ["photo.png", "x.png"] "photo.png").ok = false
    ∧ (retryFailedFileRenamer envRepairDemo ["photo.png", "x.png"] "photo.png").fs
        = "photo.png" :: ["photo.png", "x.png"].erase "photo.png"
    ∧ (retryFailedFileRenamer envRepairDemo ["photo.png", "x.png"] "photo.png").fs.Perm
        ["photo.png", "x.png"]
    ∧ (retryFailedFileRenamer envRepairDemo ["photo.png", "x.png"] "photo.png").fatal
        = false :=
  ⟨(c9_repair_restores_exact_original envRepairDemo ["photo.png", "x.png"] "photo.png"
      rfl (by decide) (Or.inl rfl)).1,
   (c9_repair_restores_exact_original envRepairDemo ["photo.png", "x.png"] "photo.png"
      rfl (by decide) (Or.inl rfl)).2.1 rfl⟩

/-- C10: when the JSON rewrite fails during a `record` operation, the
in-memory map is the same one a successful write would have produced (the
append precedes the guarded write), the run continues, and a later file
with the same lowered extension is resolved by the rule lookup with no
extension-classification oracle call. -/
theorem c10_memory_map_survives_write_failure (m : ExtMap) (ext folder : String)
    (env : ClassifyEnv) :
    (update_extension_map_run m ext folder false).1 = update_extension_map m ext folder
    ∧ (ruleLookup (update_extension_map_run m ext folder false).1 (pyLower ext)).isSome
    ∧ OracleCall.extClassify ∉
      (classifyFile (update_extension_map_run m ext folder false).1 env (pyLower ext)).calls := by
  have h1 : (update_extension_map_run m ext folder false).1
      = update_extension_map m ext folder :=
    update_run_map_ignores_write m ext folder
  refine ⟨h1, ?_, ?_⟩
  · rw [h1]
    exact ruleLookup_after_update m ext folder
  · rw [h1]
    have hsome := ruleLookup_after_update m ext folder
    cases hlk : ruleLookup (update_extension_map m ext folder) (pyLower ext) with
    | none => rw [hlk] at hsome; simp at hsome
    | some cat => exact (classifyFile_rule_no_escalation _ env _ cat hlk).1

end Organiser
